import Mathlib

/-!
Verification of the copypasta-cli streaming protocol and HTTP session layer.

The development shallowly embeds the Rust sources:
* `src/streams.rs` — the producer and consumer state machines (`produce`, `consume`),
  with stdin modelled as a list of read results and the channel's inbound messages
  as a list of events processed by a fold, exactly as the Rust `messages.fold`.
* `src/client.rs` — `check_resp`, `add_token`, `get_url`, `get_socket_url`,
  `ClientConfig::load_from_file` and the request construction of the five API calls.

JSON payloads are modelled by a small inductive `Json`; base64 (the `base64` crate's
STANDARD config with padding, as used by `encode_config_buf` / `decode`) is embedded
executably and proved to round-trip.
-/

namespace Copypasta

/-- Structured-document payloads (serde_json values restricted to the shapes the
program produces or inspects: strings, booleans, objects). -/
inductive Json where
  | str (s : String)
  | bool (b : Bool)
  | obj (fields : List (String × Json))

/-- Field lookup in a JSON object's field list (first match), as serde_json's
`Value::get` does for objects. -/
def lookupField : List (String × Json) → String → Option Json
  | [], _ => none
  | (k, v) :: rest, key => if k = key then some v else lookupField rest key

/-- `Value::get(key)`: a field of an object, `None` on any non-object value. -/
def Json.get : Json → String → Option Json
  | Json.obj fs, key => lookupField fs key
  | _, _ => none

/-- `Value::as_str()`: the string of a string value, `None` otherwise. -/
def Json.asStr : Json → Option String
  | Json.str s => some s
  | _ => none

/-- The STANDARD base64 alphabet. -/
def b64Alphabet : List Char :=
  ['A','B','C','D','E','F','G','H','I','J','K','L','M',
   'N','O','P','Q','R','S','T','U','V','W','X','Y','Z',
   'a','b','c','d','e','f','g','h','i','j','k','l','m',
   'n','o','p','q','r','s','t','u','v','w','x','y','z',
   '0','1','2','3','4','5','6','7','8','9','+','/']

/-- Character for a sextet value (0..63). -/
def sextetToChar (n : Nat) : Char := b64Alphabet.getD n 'A'

/-- Sextet value of an alphabet character; `none` for characters outside the alphabet. -/
def charToSextet (c : Char) : Option Nat :=
  let i := b64Alphabet.indexOf c
  if i < 64 then some i else none

theorem charToSextet_sextetToChar_fin :
    ∀ n : Fin 64, charToSextet (sextetToChar n.val) = some n.val := by decide

theorem sextetToChar_ne_pad_fin : ∀ n : Fin 64, sextetToChar n.val ≠ '=' := by decide

theorem charToSextet_sextetToChar (n : Nat) (h : n < 64) :
    charToSextet (sextetToChar n) = some n :=
  charToSextet_sextetToChar_fin ⟨n, h⟩

theorem sextetToChar_ne_pad (n : Nat) (h : n < 64) : sextetToChar n ≠ '=' :=
  sextetToChar_ne_pad_fin ⟨n, h⟩

/-- base64 STANDARD encoding of a byte list (bytes as naturals < 256), three input
bytes per four output characters, `'='`-padded tail. -/
def encodeChunks : List Nat → List Char
  | b0 :: b1 :: b2 :: rest =>
    sextetToChar (b0 / 4) :: sextetToChar ((b0 % 4) * 16 + b1 / 16) ::
      sextetToChar ((b1 % 16) * 4 + b2 / 64) :: sextetToChar (b2 % 64) :: encodeChunks rest
  | [b0, b1] =>
    [sextetToChar (b0 / 4), sextetToChar ((b0 % 4) * 16 + b1 / 16),
     sextetToChar ((b1 % 16) * 4), '=']
  | [b0] =>
    [sextetToChar (b0 / 4), sextetToChar ((b0 % 4) * 16), '=', '=']
  | [] => []

/-- base64 STANDARD decoding: groups of four characters, padding only in a final
group, `none` on any character outside the alphabet or malformed length. -/
def decodeChunks : List Char → Option (List Nat)
  | [] => some []
  | c0 :: c1 :: c2 :: c3 :: rest =>
    match charToSextet c0, charToSextet c1 with
    | some s0, some s1 =>
      if c2 = '=' then
        if c3 = '=' then
          if rest = [] then some [s0 * 4 + s1 / 16] else none
        else none
      else
        match charToSextet c2 with
        | some s2 =>
          if c3 = '=' then
            if rest = [] then some [s0 * 4 + s1 / 16, (s1 % 16) * 16 + s2 / 4] else none
          else
            match charToSextet c3 with
            | some s3 =>
              match decodeChunks rest with
              | some tail =>
                some ((s0 * 4 + s1 / 16) :: ((s1 % 16) * 16 + s2 / 4) ::
                  ((s2 % 4) * 64 + s3) :: tail)
              | none => none
            | none => none
        | none => none
    | _, _ => none
  | _ => none

theorem decodeChunks_encodeChunks :
    ∀ bs : List Nat, (∀ b ∈ bs, b < 256) → decodeChunks (encodeChunks bs) = some bs
  | [], _ => rfl
  | [b0], h => by
    have h0 : b0 < 256 := h b0 (by simp)
    simp only [encodeChunks, decodeChunks,
      charToSextet_sextetToChar (b0 / 4) (by omega),
      charToSextet_sextetToChar ((b0 % 4) * 16) (by omega)]
    simp
    omega
  | [b0, b1], h => by
    have h0 : b0 < 256 := h b0 (by simp)
    have h1 : b1 < 256 := h b1 (by simp)
    simp only [encodeChunks, decodeChunks,
      charToSextet_sextetToChar (b0 / 4) (by omega),
      charToSextet_sextetToChar ((b0 % 4) * 16 + b1 / 16) (by omega),
      if_neg (sextetToChar_ne_pad ((b1 % 16) * 4) (by omega)),
      charToSextet_sextetToChar ((b1 % 16) * 4) (by omega)]
    simp
    omega
  | b0 :: b1 :: b2 :: b3 :: rest, h => by
    have h0 : b0 < 256 := h b0 (by simp)
    have h1 : b1 < 256 := h b1 (by simp)
    have h2 : b2 < 256 := h b2 (by simp)
    have ih := decodeChunks_encodeChunks (b3 :: rest) (fun b hb => h b (by simp [hb]))
    simp only [encodeChunks, decodeChunks,
      charToSextet_sextetToChar (b0 / 4) (by omega),
      charToSextet_sextetToChar ((b0 % 4) * 16 + b1 / 16) (by omega),
      if_neg (sextetToChar_ne_pad ((b1 % 16) * 4 + b2 / 64) (by omega)),
      charToSextet_sextetToChar ((b1 % 16) * 4 + b2 / 64) (by omega),
      if_neg (sextetToChar_ne_pad (b2 % 64) (by omega)),
      charToSextet_sextetToChar (b2 % 64) (by omega)]
    rw [ih]
    simp
    omega
  | [b0, b1, b2], h => by
    have h0 : b0 < 256 := h b0 (by simp)
    have h1 : b1 < 256 := h b1 (by simp)
    have h2 : b2 < 256 := h b2 (by simp)
    simp only [encodeChunks, decodeChunks,
      charToSextet_sextetToChar (b0 / 4) (by omega),
      charToSextet_sextetToChar ((b0 % 4) * 16 + b1 / 16) (by omega),
      if_neg (sextetToChar_ne_pad ((b1 % 16) * 4 + b2 / 64) (by omega)),
      charToSextet_sextetToChar ((b1 % 16) * 4 + b2 / 64) (by omega),
      if_neg (sextetToChar_ne_pad (b2 % 64) (by omega)),
      charToSextet_sextetToChar (b2 % 64) (by omega)]
    simp
    omega

/-- `base64::encode_config_buf(bytes, base64::STANDARD, buf)`: the base64 text. -/
def base64Encode (bs : List Nat) : String := String.mk (encodeChunks bs)

/-- `base64::decode(text)`: the decoded bytes, `none` on invalid base64. -/
def base64Decode (s : String) : Option (List Nat) := decodeChunks s.data

theorem base64Decode_base64Encode (bs : List Nat) (h : ∀ b ∈ bs, b < 256) :
    base64Decode (base64Encode bs) = some bs :=
  decodeChunks_encodeChunks bs h

/-! ## The transfer state machines (`src/streams.rs`) -/

/-- The producer's states (`enum ProducerState`). Only `readyToProduce` is ever held
by the fold accumulator; the others are carried over from the source verbatim. -/
inductive ProducerState where
  | readyToProduce
  | waitingForAck
  | producing
  | done

/-- The consumer's states (`enum ConsumerState`). The fold starts in `consuming`. -/
inductive ConsumerState where
  | readyToConsume
  | consuming
  | done

/-- An inbound channel message as seen through `into_good`: a custom event with its
name and payload, or a defined (system) Phoenix event. -/
inductive StreamEvent where
  | custom (name : String) (payload : Json)
  | defined

/-- An outbound message: event name and JSON payload, as sent by `send_msg2`. -/
abbrev OutMsg := String × Json

/-- One result of `io::stdin().read(&mut in_buf)` with a 1,000,000-byte buffer:
either some bytes (`Ok(n)`, the chunk's length being `n`; a length of 0 signals
EOF) or an I/O error (`Err(e)`). The remaining stdin is a list of such results;
an exhausted list reads as `Ok(0)`. -/
inductive ReadRes where
  | chunk (data : List Nat)
  | fail

/-- A stdin model is valid when every successful read fits the 1,000,000-byte
buffer and yields bytes. -/
def ValidStdin (stdin : List ReadRes) : Prop :=
  ∀ d, ReadRes.chunk d ∈ stdin → d.length ≤ 1000000 ∧ ∀ b ∈ d, b < 256

/-- The body of the producer's `messages.fold` closure: given the current state,
the remaining stdin and one inbound message, the messages sent, the next fold
state (`none` models the `Err(())` early exit) and the remaining stdin.

Mirrors `produce` in `src/streams.rs` lines 82–110: on `bytes_requested` in
`ReadyToProduce`, a read of `Ok(0)` sends `done {}` and exits, `Ok(n)` sends
`bytes` whose payload is the bare base64 string (`out_buf` is `'"' b64 '"'`,
parsed by `serde_json::from_str` into a JSON string), `Err(_)` sends
`done {"error": true}` and exits; every other (state, event) pair is ignored. -/
def produceStep (state : ProducerState) (stdin : List ReadRes) (ev : StreamEvent) :
    List OutMsg × Option ProducerState × List ReadRes :=
  match state, ev with
  | ProducerState.readyToProduce, StreamEvent.custom name _ =>
    if name = "bytes_requested" then
      match stdin with
      | [] => ([("done", Json.obj [])], none, [])
      | ReadRes.chunk d :: rest =>
        if d.length = 0 then
          ([("done", Json.obj [])], none, rest)
        else
          ([("bytes", Json.str (base64Encode d))], some ProducerState.readyToProduce, rest)
      | ReadRes.fail :: rest =>
        ([("done", Json.obj [("error", Json.bool true)])], none, rest)
    else ([], some state, stdin)
  | _, _ => ([], some state, stdin)

/-- The producer's event loop: fold `produceStep` over the inbound messages,
collecting everything sent; an early exit drops the remaining messages, as
`core.run(runner)` does when the fold returns `Err(())`. -/
def produce : ProducerState → List ReadRes → List StreamEvent → List OutMsg
  | _, _, [] => []
  | state, stdin, ev :: evs =>
    match produceStep state stdin ev with
    | (out, none, _) => out
    | (out, some s, stdin2) => out ++ produce s stdin2 evs

/-- The body of the consumer's `messages.fold` closure (`consume` in
`src/streams.rs` lines 142–159): on `bytes` in `Consuming`, read payload field
`data`, take it as a string, base64-decode it, write to stdout, request more;
any `unwrap` failure is a panic, modelled as `none`. On `no_more_data` exit the
fold; everything else is ignored. Result: written byte chunks, sent messages,
and the next state (`none` = exit). -/
def consumeStep (state : ConsumerState) (ev : StreamEvent) :
    Option (List (List Nat) × List OutMsg × Option ConsumerState) :=
  match state, ev with
  | ConsumerState.consuming, StreamEvent.custom name payload =>
    if name = "bytes" then
      match payload.get "data" with
      | none => none
      | some v =>
        match v.asStr with
        | none => none
        | some x =>
          match base64Decode x with
          | none => none
          | some decoded =>
            some ([decoded], [("request_bytes", Json.obj [])], some ConsumerState.consuming)
    else if name = "no_more_data" then some ([], [], none)
    else some ([], [], some state)
  | _, _ => some ([], [], some state)

/-- The consumer's event loop: fold `consumeStep` over the inbound messages.
`none` models a panic aborting the process; otherwise the stdout writes and the
sent messages are collected, and an early exit drops the remaining messages. -/
def consume : ConsumerState → List StreamEvent → Option (List (List Nat) × List OutMsg)
  | _, [] => some ([], [])
  | state, ev :: evs =>
    match consumeStep state ev with
    | none => none
    | some (w, out, none) => some (w, out)
    | some (w, out, some s) =>
      match consume s evs with
      | none => none
      | some (w2, out2) => some (w ++ w2, out ++ out2)

/-- Number of inbound custom events with the given name. -/
def countEv (k : String) : List StreamEvent → Nat
  | [] => 0
  | StreamEvent.custom n _ :: rest => (if n = k then 1 else 0) + countEv k rest
  | StreamEvent.defined :: rest => countEv k rest

/-- Number of outbound messages with the given event name. -/
def countOut (k : String) : List OutMsg → Nat
  | [] => 0
  | (n, _) :: rest => (if n = k then 1 else 0) + countOut k rest

theorem countOut_append (k : String) (l1 l2 : List OutMsg) :
    countOut k (l1 ++ l2) = countOut k l1 + countOut k l2 := by
  induction l1 with
  | nil => simp [countOut]
  | cons m rest ih =>
    obtain ⟨n, p⟩ := m
    simp [countOut, ih]
    omega

/-- Case analysis on one producer step: a step either ignores the event, sends a
clean `done` and exits, sends an error `done` and exits, or — only in direct
response to a `bytes_requested` event — sends one `bytes` message holding the
base64 of the chunk read from the head of stdin. -/
theorem produceStep_cases (s : ProducerState) (stdin : List ReadRes) (ev : StreamEvent) :
    produceStep s stdin ev = ([], some s, stdin) ∨
    (∃ rest, produceStep s stdin ev = ([("done", Json.obj [])], none, rest)) ∨
    (∃ rest, produceStep s stdin ev =
      ([("done", Json.obj [("error", Json.bool true)])], none, rest)) ∨
    (∃ d rest p, stdin = ReadRes.chunk d :: rest ∧ d ≠ [] ∧
      ev = StreamEvent.custom "bytes_requested" p ∧
      produceStep s stdin ev =
        ([("bytes", Json.str (base64Encode d))], some ProducerState.readyToProduce, rest)) := by
  cases s with
  | readyToProduce =>
    cases ev with
    | defined => left; rfl
    | custom name p =>
      by_cases hname : name = "bytes_requested"
      · subst hname
        cases stdin with
        | nil => right; left; exact ⟨[], by simp [produceStep]⟩
        | cons r rest =>
          cases r with
          | chunk d =>
            by_cases hd : d.length = 0
            · right; left
              exact ⟨rest, by simp [produceStep, hd]⟩
            · right; right; right
              refine ⟨d, rest, p, rfl, ?_, rfl, by simp [produceStep, hd]⟩
              simpa [List.length_eq_zero] using hd
          | fail => right; right; left; exact ⟨rest, by simp [produceStep]⟩
      · left; simp [produceStep, hname]
  | waitingForAck => left; rfl
  | producing => left; rfl
  | done => left; rfl

/-- Case analysis on one consumer step: a step either ignores the event, exits on
`no_more_data`, panics on a malformed `bytes` payload, or — only in direct
response to a `bytes` event — writes one decoded chunk and sends one
`request_bytes`. -/
theorem consumeStep_cases (s : ConsumerState) (ev : StreamEvent) :
    consumeStep s ev = some ([], [], some s) ∨
    consumeStep s ev = some ([], [], none) ∨
    consumeStep s ev = none ∨
    (∃ d p, ev = StreamEvent.custom "bytes" p ∧
      consumeStep s ev =
        some ([d], [("request_bytes", Json.obj [])], some ConsumerState.consuming)) := by
  cases s with
  | consuming =>
    cases ev with
    | defined => left; rfl
    | custom name payload =>
      by_cases hb : name = "bytes"
      · subst hb
        cases hd : payload.get "data" with
        | none => right; right; left; simp [consumeStep, hd]
        | some v =>
          cases hs : v.asStr with
          | none => right; right; left; simp [consumeStep, hd, hs]
          | some x =>
            cases hdec : base64Decode x with
            | none => right; right; left; simp [consumeStep, hd, hs, hdec]
            | some decoded =>
              right; right; right
              exact ⟨decoded, payload, rfl, by simp [consumeStep, hd, hs, hdec]⟩
      · by_cases hn : name = "no_more_data"
        · right; left; simp [consumeStep, hb, hn]
        · left; simp [consumeStep, hb, hn]
  | readyToConsume => left; rfl
  | done => left; rfl

/-- A non-exiting consumer step starting in `Consuming` stays in `Consuming`. -/
theorem consumeStep_state (ev : StreamEvent) (w : List (List Nat)) (out : List OutMsg)
    (s2 : ConsumerState)
    (h : consumeStep ConsumerState.consuming ev = some (w, out, some s2)) :
    s2 = ConsumerState.consuming := by
  rcases consumeStep_cases ConsumerState.consuming ev with hc | hc | hc | ⟨d, p, hev, hc⟩ <;>
    rw [hc] at h <;> simp_all

/-- A stdin suffix on which the next `bytes_requested` terminates the producer:
exhausted (reads return `Ok(0)`), an explicit EOF read, or a failing read. -/
def TerminalStdin (stdin : List ReadRes) : Prop :=
  stdin = [] ∨ (∃ rest, stdin = ReadRes.chunk [] :: rest) ∨
    (∃ rest, stdin = ReadRes.fail :: rest)

/-- The single `done` message the producer sends on its terminal read. -/
def termOut : List ReadRes → List OutMsg
  | ReadRes.fail :: _ => [("done", Json.obj [("error", Json.bool true)])]
  | _ => [("done", Json.obj [])]

/-- Characterization of a full producer run: with a stdin made of nonempty chunks
followed by a terminal condition, and at least one `bytes_requested` per chunk
plus one more to observe the end, the producer sends exactly one `bytes` message
per chunk, in order, followed by the single terminal `done`; everything after the
terminal read (inbound events included) is ignored. -/
theorem produce_spec (stdin2 : List ReadRes) (hterm : TerminalStdin stdin2) :
    ∀ (evs : List StreamEvent) (chunks : List (List Nat)),
    (∀ c ∈ chunks, c ≠ []) →
    chunks.length + 1 ≤ countEv "bytes_requested" evs →
    produce ProducerState.readyToProduce (chunks.map ReadRes.chunk ++ stdin2) evs
      = chunks.map (fun c => ("bytes", Json.str (base64Encode c))) ++ termOut stdin2 := by
  intro evs
  induction evs with
  | nil =>
    intro chunks hne hcnt
    simp [countEv] at hcnt
  | cons ev evs ih =>
    intro chunks hne hcnt
    cases ev with
    | defined =>
      have hcnt2 : chunks.length + 1 ≤ countEv "bytes_requested" evs := hcnt
      simpa [produce, produceStep] using ih chunks hne hcnt2
    | custom name p =>
      by_cases hname : name = "bytes_requested"
      · subst hname
        cases chunks with
        | nil =>
          rcases hterm with h | ⟨rest, h⟩ | ⟨rest, h⟩ <;> subst h <;>
            simp [produce, produceStep, termOut]
        | cons c cs =>
          have hc : c ≠ [] := hne c (by simp)
          have hlen : ¬c.length = 0 := by simpa [List.length_eq_zero] using hc
          have hcnt2 : cs.length + 1 ≤ countEv "bytes_requested" evs := by
            simp [countEv] at hcnt
            omega
          simp only [List.map_cons, List.cons_append, produce, produceStep, if_pos rfl,
            if_neg hlen]
          simp only [ite_true, List.append_eq]
          rw [ih cs (fun c2 hc2 => hne c2 (by simp [hc2])) hcnt2]
          simp
      · have hcnt2 : chunks.length + 1 ≤ countEv "bytes_requested" evs := by
          simpa [countEv, hname] using hcnt
        simpa [produce, produceStep, hname] using ih chunks hne hcnt2

/-- Characterization of a full consumer run on a well-formed stream: one `bytes`
event per chunk, payload a `data` field holding the base64 text, followed by
`no_more_data`. The consumer writes every chunk in order and sends one
`request_bytes` per chunk. -/
theorem consume_spec :
    ∀ chunks : List (List Nat), (∀ c ∈ chunks, ∀ b ∈ c, b < 256) →
    consume ConsumerState.consuming
      (chunks.map (fun c =>
          StreamEvent.custom "bytes" (Json.obj [("data", Json.str (base64Encode c))])) ++
        [StreamEvent.custom "no_more_data" (Json.obj [])])
      = some (chunks, List.replicate chunks.length ("request_bytes", Json.obj [])) := by
  intro chunks
  induction chunks with
  | nil =>
    intro _
    simp [consume, consumeStep]
  | cons c cs ih =>
    intro hb
    have hdec : base64Decode (base64Encode c) = some c :=
      base64Decode_base64Encode c (hb c (by simp))
    simp only [List.map_cons, List.cons_append, consume, consumeStep, if_pos rfl,
      Json.get, lookupField, Json.asStr, hdec]
    simp only [ite_true, List.append_eq, hdec]
    rw [ih (fun c2 hc2 => hb c2 (by simp [hc2]))]
    simp [List.replicate_succ]

theorem countEv_cons_ge (k : String) (ev : StreamEvent) (evs : List StreamEvent) :
    countEv k evs ≤ countEv k (ev :: evs) := by
  cases ev <;> simp [countEv]

/-- The producer sends at most one `bytes` message per inbound `bytes_requested`
event, whatever the state, the stdin and the inbound sequence. -/
theorem produce_count_bytes :
    ∀ (evs : List StreamEvent) (s : ProducerState) (stdin : List ReadRes),
    countOut "bytes" (produce s stdin evs) ≤ countEv "bytes_requested" evs := by
  intro evs
  induction evs with
  | nil => intro s stdin; simp [produce, countOut, countEv]
  | cons ev evs ih =>
    intro s stdin
    rcases produceStep_cases s stdin ev with hc | ⟨rest, hc⟩ | ⟨rest, hc⟩ |
      ⟨d, rest, p, hstdin, hd, hev, hc⟩
    · simp only [produce, hc, List.nil_append]
      exact le_trans (ih s stdin) (countEv_cons_ge _ ev evs)
    · simp [produce, hc, countOut]
    · simp [produce, hc, countOut]
    · subst hev
      have := ih ProducerState.readyToProduce rest
      simp only [produce, hc, countOut_append, countOut, countEv, ite_true]
      omega

/-- The consumer sends at most one `request_bytes` message per inbound `bytes`
event, whatever the state and the inbound sequence (when it does not panic). -/
theorem consume_count_req :
    ∀ (evs : List StreamEvent) (s : ConsumerState) (w : List (List Nat)) (outs : List OutMsg),
    consume s evs = some (w, outs) →
    countOut "request_bytes" outs ≤ countEv "bytes" evs := by
  intro evs
  induction evs with
  | nil =>
    intro s w outs h
    simp [consume] at h
    obtain ⟨rfl, rfl⟩ := h
    simp [countOut, countEv]
  | cons ev evs ih =>
    intro s w outs h
    rcases consumeStep_cases s ev with hc | hc | hc | ⟨d, p, hev, hc⟩
    · simp only [consume, hc] at h
      cases hrec : consume s evs with
      | none => rw [hrec] at h; exact absurd h (by simp)
      | some r2 =>
        obtain ⟨w2, out2⟩ := r2
        rw [hrec] at h
        simp only [Option.some.injEq, Prod.mk.injEq] at h
        obtain ⟨rfl, rfl⟩ := h
        simp only [List.nil_append]
        exact le_trans (ih s w2 out2 hrec) (countEv_cons_ge _ ev evs)
    · simp only [consume, hc, Option.some.injEq, Prod.mk.injEq] at h
      obtain ⟨rfl, rfl⟩ := h
      simp [countOut]
    · rw [consume, hc] at h
      exact absurd h (by simp)
    · subst hev
      simp only [consume, hc] at h
      cases hrec : consume ConsumerState.consuming evs with
      | none => rw [hrec] at h; exact absurd h (by simp)
      | some r2 =>
        obtain ⟨w2, out2⟩ := r2
        rw [hrec] at h
        simp only [Option.some.injEq, Prod.mk.injEq] at h
        obtain ⟨rfl, rfl⟩ := h
        have := ih ConsumerState.consuming w2 out2 hrec
        simp only [countOut_append, countOut, countEv, ite_true, List.append_eq,
          List.nil_append]
        omega

/-- Every `bytes` message the producer sends carries the base64 encoding of one
nonempty chunk obtained by one read from stdin. -/
theorem produce_bytes_shape :
    ∀ (evs : List StreamEvent) (s : ProducerState) (stdin : List ReadRes) (p : Json),
    ("bytes", p) ∈ produce s stdin evs →
    ∃ d, ReadRes.chunk d ∈ stdin ∧ d ≠ [] ∧ p = Json.str (base64Encode d) := by
  intro evs
  induction evs with
  | nil => intro s stdin p h; simp [produce] at h
  | cons ev evs ih =>
    intro s stdin p h
    rcases produceStep_cases s stdin ev with hc | ⟨rest, hc⟩ | ⟨rest, hc⟩ |
      ⟨d, rest, q, hstdin, hd, hev, hc⟩
    · simp only [produce, hc, List.nil_append] at h
      exact ih s stdin p h
    · simp only [produce, hc, List.mem_singleton, Prod.mk.injEq] at h
      exact absurd h.1 (by decide)
    · simp only [produce, hc, List.mem_singleton, Prod.mk.injEq] at h
      exact absurd h.1 (by decide)
    · simp only [produce, hc, List.cons_append, List.nil_append, List.mem_cons,
        Prod.mk.injEq] at h
      rcases h with ⟨-, rfl⟩ | h
      · exact ⟨d, by simp [hstdin], hd, rfl⟩
      · obtain ⟨d2, hmem, hne2, hp⟩ := ih ProducerState.readyToProduce rest p h
        exact ⟨d2, by simp [hstdin, hmem], hne2, hp⟩

/-- Processing stops at `no_more_data`: whatever follows it contributes nothing to
a consumer run that reaches it in the `Consuming` state. -/
theorem consume_halt :
    ∀ (evs1 : List StreamEvent) (p : Json) (evs2 : List StreamEvent)
      (r : List (List Nat) × List OutMsg),
    consume ConsumerState.consuming (evs1 ++ [StreamEvent.custom "no_more_data" p]) = some r →
    consume ConsumerState.consuming (evs1 ++ StreamEvent.custom "no_more_data" p :: evs2)
      = some r := by
  intro evs1
  induction evs1 with
  | nil =>
    intro p evs2 r h
    simp only [List.nil_append, consume, consumeStep, ite_true] at h ⊢
    exact h
  | cons ev evs1 ih =>
    intro p evs2 r h
    rw [List.cons_append] at h
    rw [List.cons_append]
    cases hstep : consumeStep ConsumerState.consuming ev with
    | none =>
      simp only [consume, hstep] at h
      exact absurd h (by simp)
    | some triple =>
      obtain ⟨w, out, s2⟩ := triple
      cases s2 with
      | none =>
        simp only [consume, hstep] at h ⊢
        exact h
      | some s3 =>
        have hs3 : s3 = ConsumerState.consuming := consumeStep_state ev w out s3 hstep
        subst hs3
        simp only [consume, hstep] at h ⊢
        rcases hrec : consume ConsumerState.consuming
            (evs1 ++ [StreamEvent.custom "no_more_data" p]) with _ | r2
        · rw [hrec] at h
          exact absurd h (by simp)
        · rw [hrec] at h
          rw [ih p evs2 r2 hrec]
          exact h

/-! ## Channel delivery from producer to consumer

The server relays the producer's topic traffic to the consumer: every `bytes`
event is delivered with its payload, and the transfer end is announced as
`no_more_data`. `deliverRaw` forwards the producer's payloads unchanged (the
bare base64 string the producer actually sends); `deliverWrapped` is the
consumer-facing shape documented by the spec, the base64 text wrapped in a
`data` field of a document. -/

/-- Deliver the producer's `bytes` events to the consumer with payloads
unchanged, then signal `no_more_data`. -/
def deliverRaw (outs : List OutMsg) : List StreamEvent :=
  outs.filterMap (fun m =>
      if m.1 = "bytes" then some (StreamEvent.custom "bytes" m.2) else none)
    ++ [StreamEvent.custom "no_more_data" (Json.obj [])]

/-- Deliver the producer's `bytes` events to the consumer with each payload
wrapped as `{"data": payload}`, then signal `no_more_data`. -/
def deliverWrapped (outs : List OutMsg) : List StreamEvent :=
  outs.filterMap (fun m =>
      if m.1 = "bytes" then some (StreamEvent.custom "bytes" (Json.obj [("data", m.2)]))
      else none)
    ++ [StreamEvent.custom "no_more_data" (Json.obj [])]

/-! ## The HTTP session layer (`src/client.rs`) -/

/-- The persisted credentials (`struct ClientConfig`): bearer token and host. -/
structure ClientConfig where
  token : String
  host : String

/-- The API session (`struct PastaClient`), without the underlying
`reqwest::Client` handle, which carries no observable state of its own. -/
structure PastaClient where
  config : Option ClientConfig
  config_path : String

/-- The error enumeration (`enum HeyError`). `requestError` carries the message
of the underlying `reqwest::Error`. -/
inductive HeyError where
  | noConfigFound
  | notLoggedIn (login_url : String)
  | loginError
  | noToken
  | serverError (status : Nat)
  | requestError (err : String)

/-- `impl From<reqwest::Error> for HeyError`: transport failures map verbatim to
`RequestError`. -/
def heyErrorFromReqwest (err : String) : HeyError := HeyError.requestError err

/-- An HTTP response as `check_resp` observes it: its status code and its JSON
body. -/
structure HttpResponse where
  status : Nat
  body : Json

/-- serde deserialization of `struct LoginResponse { login_url: String }` from a
response body: the string field `login_url`. -/
def parseLoginResponse (j : Json) : Option String := (j.get "login_url").bind Json.asStr

/-- `check_resp` (`src/client.rs` lines 198–209): 200 is success; 403 reads a
`LoginResponse` from the body and fails with `NotLoggedIn(login_url)` (the
auth-challenge; a 403 body that does not deserialize fails through `?` as a
`RequestError`); every other status fails with `ServerError(status)`. -/
def check_resp (resp : HttpResponse) : Except HeyError Unit :=
  if resp.status = 200 then Except.ok ()
  else if resp.status = 403 then
    match parseLoginResponse resp.body with
    | some url => Except.error (HeyError.notLoggedIn url)
    | none => Except.error (heyErrorFromReqwest "error decoding response body")
  else Except.error (HeyError.serverError resp.status)

/-- `get_socket_url`: the hard-coded channel endpoint, independent of the
configured host. -/
def get_socket_url (_ : PastaClient) : Except HeyError String :=
  Except.ok "ws://localhost:4000/socket"

/-- `const DEFAULT_SCHEME` of `src/client.rs`. -/
def DEFAULT_SCHEME : String := "http"

/-- `const DEFAULT_HOST` of `src/client.rs`. -/
def DEFAULT_HOST : String := "localhost:4000"

/-- `get_url`: scheme://host/path, the host coming from the config when present. -/
def get_url (c : PastaClient) (u : String) : String :=
  match c.config with
  | some cfg => DEFAULT_SCHEME ++ "://" ++ cfg.host ++ "/" ++ u
  | none => DEFAULT_SCHEME ++ "://" ++ DEFAULT_HOST ++ "/" ++ u

/-- An outbound request under construction (`reqwest::RequestBuilder`): method,
URL, optional bearer credential, optional JSON body. -/
structure RequestBuilder where
  method : String
  url : String
  bearer : Option String
  body : Option Json

/-- `client.get(url)`: a GET request builder with no credential attached. -/
def httpGet (url : String) : RequestBuilder :=
  { method := "GET", url := url, bearer := none, body := none }

/-- `client.post(url)`: a POST request builder with no credential attached. -/
def httpPost (url : String) : RequestBuilder :=
  { method := "POST", url := url, bearer := none, body := none }

/-- `RequestBuilder::bearer_auth(token)`. -/
def bearer_auth (b : RequestBuilder) (tok : String) : RequestBuilder :=
  { b with bearer := some tok }

/-- `RequestBuilder::json(&msg)`. -/
def withJson (b : RequestBuilder) (j : Json) : RequestBuilder :=
  { b with body := some j }

/-- `add_token` (`src/client.rs` lines 152–158): attach the configured token as a
bearer credential when credentials are present, pass the builder through
unchanged otherwise. -/
def add_token (c : PastaClient) (b : RequestBuilder) : RequestBuilder :=
  match c.config with
  | some cfg => bearer_auth b cfg.token
  | none => b

/-- The request `login` sends: `GET /api` through `add_token`. -/
def loginRequest (c : PastaClient) : RequestBuilder :=
  add_token c (httpGet (get_url c "api"))

/-- The request `latest` sends: `GET /api/latest` through `add_token`. -/
def latestRequest (c : PastaClient) : RequestBuilder :=
  add_token c (httpGet (get_url c "api/latest"))

/-- The request `list` sends: `GET /api/list` through `add_token`. -/
def listRequest (c : PastaClient) : RequestBuilder :=
  add_token c (httpGet (get_url c "api/list"))

/-- The request `post` sends: `POST /api/create` through `add_token`, then the
`CreatePasta` JSON body. -/
def postRequest (c : PastaClient) (content : String) : RequestBuilder :=
  withJson (add_token c (httpPost (get_url c "api/create")))
    (Json.obj [("content", Json.str content)])

/-- The request `create_stream` sends: `GET /api/stream` through `add_token`. -/
def createStreamRequest (c : PastaClient) : RequestBuilder :=
  add_token c (httpGet (get_url c "api/stream"))

/-- `ClientConfig::load_from_file` (`src/client.rs` lines 23–32), parameterized by
the file system (`fs path` is the contents when `path` names a readable regular
file, `none` otherwise) and by serde_json deserialization of `ClientConfig`
(`parse`). A missing file is the error `NoConfigFound`; contents that do not
deserialize hit `unwrap` on an `Err`, a panic, modelled as `none`. -/
def load_from_file (fs : String → Option String) (parse : String → Option ClientConfig)
    (path : String) : Option (Except HeyError ClientConfig) :=
  match fs path with
  | none => some (Except.error HeyError.noConfigFound)
  | some content =>
    match parse content with
    | none => none
    | some cfg => some (Except.ok cfg)

/-! ## The claims -/

/-- C1, counterexample: fed the producer's own `bytes` payload shape (the bare
base64 string), the consumer's `payload.get("data").unwrap()` fails — the run
panics (`none`) on the very first chunk of a 1-byte input instead of
reproducing the input, so producing then consuming is not byte-for-byte
identity: the payload shape the producer emits is not the shape the consumer
decodes. -/
theorem c1_raw_roundtrip_fails :
    consume ConsumerState.consuming
      (deliverRaw (produce ProducerState.readyToProduce [ReadRes.chunk [0]]
        [StreamEvent.custom "bytes_requested" (Json.obj []),
         StreamEvent.custom "bytes_requested" (Json.obj [])]))
      = none := rfl

/-- C1, amended: for every input split by stdin reads into nonempty chunks of at
most 1,000,000 bytes, producing and then consuming the produced `bytes` events
with each payload rewrapped as a `{"data": ...}` document (the consumer-facing
shape; the producer's bare-string payload itself is rejected, see the
counterexample) writes exactly the input chunks, byte for byte and in order. -/
theorem c1_roundtrip_wrapped (chunks : List (List Nat))
    (hne : ∀ c ∈ chunks, c ≠ [])
    (_hlen : ∀ c ∈ chunks, c.length ≤ 1000000)
    (hbyte : ∀ c ∈ chunks, ∀ b ∈ c, b < 256)
    (evs : List StreamEvent)
    (hevs : chunks.length + 1 ≤ countEv "bytes_requested" evs) :
    consume ConsumerState.consuming
        (deliverWrapped (produce ProducerState.readyToProduce (chunks.map ReadRes.chunk) evs))
      = some (chunks, List.replicate chunks.length ("request_bytes", Json.obj [])) := by
  have hp := produce_spec [] (Or.inl rfl) evs chunks hne hevs
  rw [List.append_nil] at hp
  rw [hp]
  have hfm : ∀ l : List (List Nat),
      List.filterMap (fun m =>
          if m.1 = "bytes" then some (StreamEvent.custom "bytes" (Json.obj [("data", m.2)]))
          else none)
        (l.map (fun c => ("bytes", Json.str (base64Encode c))))
      = l.map (fun c =>
          StreamEvent.custom "bytes" (Json.obj [("data", Json.str (base64Encode c))])) := by
    intro l
    induction l with
    | nil => rfl
    | cons a t ih => simp [ih]
  have hd : deliverWrapped
      (chunks.map (fun c => ("bytes", Json.str (base64Encode c))) ++ termOut [])
      = chunks.map (fun c =>
          StreamEvent.custom "bytes" (Json.obj [("data", Json.str (base64Encode c))])) ++
        [StreamEvent.custom "no_more_data" (Json.obj [])] := by
    simp only [deliverWrapped, termOut, List.filterMap_append]
    rw [hfm chunks]
    simp
  rw [hd]
  exact consume_spec chunks hbyte

theorem c1_roundtrip_wrapped_witness :
    (∀ c ∈ [[0]], c ≠ ([] : List Nat)) ∧
    consume ConsumerState.consuming
        (deliverWrapped (produce ProducerState.readyToProduce ([[0]].map ReadRes.chunk)
          [StreamEvent.custom "bytes_requested" (Json.obj []),
           StreamEvent.custom "bytes_requested" (Json.obj [])]))
      = some ([[0]], [("request_bytes", Json.obj [])]) :=
  ⟨by decide,
   c1_roundtrip_wrapped [[0]] (by decide) (by decide) (by decide)
     [StreamEvent.custom "bytes_requested" (Json.obj []),
      StreamEvent.custom "bytes_requested" (Json.obj [])] (by decide)⟩

/-- C2: flow control. The producer sends at most one `bytes` message per inbound
`bytes_requested` event — in any run, from any state and stdin, the number of
`bytes` messages sent is bounded by the number of `bytes_requested` events
received, and a step emits `bytes` only in direct response to `bytes_requested`
(`produceStep_cases`); symmetrically, a non-panicking consumer run sends at most
one `request_bytes` per inbound `bytes` event. At most one chunk is outstanding
per direction. -/
theorem c2_flow_control :
    (∀ (s : ProducerState) (stdin : List ReadRes) (evs : List StreamEvent),
      countOut "bytes" (produce s stdin evs) ≤ countEv "bytes_requested" evs) ∧
    (∀ (s : ConsumerState) (evs : List StreamEvent) (w : List (List Nat))
      (outs : List OutMsg),
      consume s evs = some (w, outs) →
      countOut "request_bytes" outs ≤ countEv "bytes" evs) :=
  ⟨fun s stdin evs => produce_count_bytes evs s stdin,
   fun s evs w outs h => consume_count_req evs s w outs h⟩

theorem c2_flow_control_witness :
    countOut "bytes"
        (produce ProducerState.readyToProduce [ReadRes.chunk [0]]
          [StreamEvent.custom "bytes_requested" (Json.obj [])])
      ≤ countEv "bytes_requested" [StreamEvent.custom "bytes_requested" (Json.obj [])] ∧
    countOut "request_bytes" [("request_bytes", Json.obj [])]
      ≤ countEv "bytes"
          [StreamEvent.custom "bytes" (Json.obj [("data", Json.str (base64Encode [0]))])] :=
  ⟨c2_flow_control.1 ProducerState.readyToProduce [ReadRes.chunk [0]]
     [StreamEvent.custom "bytes_requested" (Json.obj [])],
   c2_flow_control.2 ConsumerState.consuming
     [StreamEvent.custom "bytes" (Json.obj [("data", Json.str (base64Encode [0]))])]
     [[0]] [("request_bytes", Json.obj [])] rfl⟩

/-- C3: producer termination. After producing one `bytes` message per nonempty
chunk, the terminal read — stdin exhausted (`Ok(0)`), an explicit zero-byte read,
or a read error — makes the producer send exactly one `done` message (empty
payload on EOF, `{"error": true}` on failure) as its final message; nothing is
sent afterwards and the remaining inbound events are not processed (the fold
exits with `Err(())`). -/
theorem c3_producer_termination (chunks : List (List Nat)) (rest : List ReadRes)
    (evs : List StreamEvent)
    (hne : ∀ c ∈ chunks, c ≠ [])
    (hevs : chunks.length + 1 ≤ countEv "bytes_requested" evs) :
    produce ProducerState.readyToProduce (chunks.map ReadRes.chunk) evs
      = chunks.map (fun c => ("bytes", Json.str (base64Encode c))) ++
          [("done", Json.obj [])] ∧
    produce ProducerState.readyToProduce
        (chunks.map ReadRes.chunk ++ ReadRes.chunk [] :: rest) evs
      = chunks.map (fun c => ("bytes", Json.str (base64Encode c))) ++
          [("done", Json.obj [])] ∧
    produce ProducerState.readyToProduce
        (chunks.map ReadRes.chunk ++ ReadRes.fail :: rest) evs
      = chunks.map (fun c => ("bytes", Json.str (base64Encode c))) ++
          [("done", Json.obj [("error", Json.bool true)])] := by
  refine ⟨?_, ?_, ?_⟩
  · have := produce_spec [] (Or.inl rfl) evs chunks hne hevs
    rw [List.append_nil] at this
    simpa [termOut] using this
  · have := produce_spec (ReadRes.chunk [] :: rest) (Or.inr (Or.inl ⟨rest, rfl⟩))
      evs chunks hne hevs
    simpa [termOut] using this
  · have := produce_spec (ReadRes.fail :: rest) (Or.inr (Or.inr ⟨rest, rfl⟩))
      evs chunks hne hevs
    simpa [termOut] using this

theorem c3_producer_termination_witness :
    produce ProducerState.readyToProduce []
        [StreamEvent.custom "bytes_requested" (Json.obj [])]
      = [("done", Json.obj [])] ∧
    produce ProducerState.readyToProduce [ReadRes.chunk []]
        [StreamEvent.custom "bytes_requested" (Json.obj [])]
      = [("done", Json.obj [])] ∧
    produce ProducerState.readyToProduce [ReadRes.fail]
        [StreamEvent.custom "bytes_requested" (Json.obj [])]
      = [("done", Json.obj [("error", Json.bool true)])] :=
  c3_producer_termination [] [] [StreamEvent.custom "bytes_requested" (Json.obj [])]
    (by decide) (by decide)

/-- C4: receiving `no_more_data` while consuming exits the fold at once: the
events after it contribute nothing (neither writes nor `request_bytes`
messages), and from the initial `Consuming` state an immediate `no_more_data`
ends the run with no output at all. -/
theorem c4_no_more_data_halts (p : Json) (evs1 evs2 : List StreamEvent)
    (r : List (List Nat) × List OutMsg)
    (h : consume ConsumerState.consuming
      (evs1 ++ [StreamEvent.custom "no_more_data" p]) = some r) :
    consume ConsumerState.consuming
        (StreamEvent.custom "no_more_data" p :: evs2) = some ([], []) ∧
    consume ConsumerState.consuming
        (evs1 ++ StreamEvent.custom "no_more_data" p :: evs2) = some r := by
  constructor
  · simpa using consume_halt [] p evs2 ([], []) rfl
  · exact consume_halt evs1 p evs2 r h

theorem c4_no_more_data_halts_witness :
    consume ConsumerState.consuming
        (StreamEvent.custom "no_more_data" (Json.obj []) :: [StreamEvent.defined])
      = some ([], []) ∧
    consume ConsumerState.consuming
        ([] ++ StreamEvent.custom "no_more_data" (Json.obj []) :: [StreamEvent.defined])
      = some ([], []) :=
  c4_no_more_data_halts (Json.obj []) [] [StreamEvent.defined] ([], []) rfl

/-- C5: HTTP status interpretation of the authenticated calls. Status 200
succeeds; status 403 with body `{"login_url": U}` surfaces the dedicated
auth-challenge error `NotLoggedIn U` carrying exactly U; every other status S
surfaces `ServerError S`; a transport-level `reqwest::Error` converts verbatim
to `RequestError`. -/
theorem c5_check_resp (b1 b2 : Json) (u : String) (s : Nat) (e : String)
    (hs1 : s ≠ 200) (hs2 : s ≠ 403) :
    check_resp ⟨200, b1⟩ = Except.ok () ∧
    check_resp ⟨403, Json.obj [("login_url", Json.str u)]⟩
      = Except.error (HeyError.notLoggedIn u) ∧
    check_resp ⟨s, b2⟩ = Except.error (HeyError.serverError s) ∧
    heyErrorFromReqwest e = HeyError.requestError e := by
  refine ⟨rfl, ?_, ?_, rfl⟩
  · simp [check_resp, parseLoginResponse, Json.get, lookupField, Json.asStr]
  · simp [check_resp, hs1, hs2]

theorem c5_check_resp_witness :
    (500 : Nat) ≠ 200 ∧ (500 : Nat) ≠ 403 ∧
    check_resp ⟨200, Json.obj []⟩ = Except.ok () ∧
    check_resp ⟨403, Json.obj [("login_url", Json.str "https://x/auth")]⟩
      = Except.error (HeyError.notLoggedIn "https://x/auth") ∧
    check_resp ⟨500, Json.obj []⟩ = Except.error (HeyError.serverError 500) ∧
    heyErrorFromReqwest "boom" = HeyError.requestError "boom" := by
  have h := c5_check_resp (Json.obj []) (Json.obj []) "https://x/auth" 500 "boom"
    (by decide) (by decide)
  exact ⟨by decide, by decide, h.1, h.2.1, h.2.2.1, h.2.2.2⟩

/-- C6, counterexample: two Sessions whose configured hosts differ ("a" vs "b")
obtain the same socket URL — `get_socket_url` does not derive the endpoint from
the current host. -/
theorem c6_socket_url_ignores_host :
    ("a" : String) ≠ "b" ∧
    get_socket_url ⟨some ⟨"t", "a"⟩, "p"⟩ = get_socket_url ⟨some ⟨"t", "b"⟩, "p"⟩ :=
  ⟨by decide, rfl⟩

/-- C6, amended: `get_socket_url` returns the constant
`ws://localhost:4000/socket` for every Session, regardless of the configured
host; Sessions with different hosts therefore obtain the same socket URL. -/
theorem c6_socket_url_constant (c : PastaClient) :
    get_socket_url c = Except.ok "ws://localhost:4000/socket" := rfl

/-- C7: chunking. Every `bytes` message the producer transmits carries the
base64 of one nonempty chunk obtained by a single stdin read, of at most
1,000,000 bytes under a valid stdin; and for a 2,500,000-byte input delivered by
full reads (1,000,000 + 1,000,000 + 500,000), the producer emits exactly three
`bytes` events of those sizes followed by `done {}`. -/
theorem c7_chunk_sizes (s : ProducerState) (stdin : List ReadRes)
    (evs : List StreamEvent) (hv : ValidStdin stdin)
    (c1 c2 c3 : List Nat)
    (h1 : c1.length = 1000000) (h2 : c2.length = 1000000) (h3 : c3.length = 500000)
    (evs2 : List StreamEvent) (hevs2 : 4 ≤ countEv "bytes_requested" evs2) :
    (∀ p, ("bytes", p) ∈ produce s stdin evs →
      ∃ d, ReadRes.chunk d ∈ stdin ∧ d ≠ [] ∧ d.length ≤ 1000000 ∧
        p = Json.str (base64Encode d)) ∧
    produce ProducerState.readyToProduce
        [ReadRes.chunk c1, ReadRes.chunk c2, ReadRes.chunk c3] evs2
      = [("bytes", Json.str (base64Encode c1)), ("bytes", Json.str (base64Encode c2)),
         ("bytes", Json.str (base64Encode c3)), ("done", Json.obj [])] := by
  constructor
  · intro p hp
    obtain ⟨d, hmem, hne, hshape⟩ := produce_bytes_shape evs s stdin p hp
    exact ⟨d, hmem, hne, (hv d hmem).1, hshape⟩
  · have hne : ∀ c ∈ [c1, c2, c3], c ≠ [] := by
      intro c hc hnil
      subst hnil
      simp only [List.mem_cons, List.not_mem_nil, or_false] at hc
      rcases hc with h | h | h
      · rw [← h] at h1; simp at h1
      · rw [← h] at h2; simp at h2
      · rw [← h] at h3; simp at h3
    have := produce_spec [] (Or.inl rfl) evs2 [c1, c2, c3] hne (by simpa using hevs2)
    simpa [termOut] using this

theorem c7_chunk_sizes_witness :
    (List.replicate 1000000 0).length = 1000000 ∧
    (List.replicate 500000 0).length = 500000 ∧
    produce ProducerState.readyToProduce
        [ReadRes.chunk (List.replicate 1000000 0), ReadRes.chunk (List.replicate 1000000 0),
         ReadRes.chunk (List.replicate 500000 0)]
        (List.replicate 4 (StreamEvent.custom "bytes_requested" (Json.obj [])))
      = [("bytes", Json.str (base64Encode (List.replicate 1000000 0))),
         ("bytes", Json.str (base64Encode (List.replicate 1000000 0))),
         ("bytes", Json.str (base64Encode (List.replicate 500000 0))),
         ("done", Json.obj [])] :=
  ⟨List.length_replicate 1000000 0, List.length_replicate 500000 0,
   (c7_chunk_sizes ProducerState.readyToProduce [] [] (fun d hd => absurd hd (by simp))
      (List.replicate 1000000 0) (List.replicate 1000000 0) (List.replicate 500000 0)
      (List.length_replicate 1000000 0) (List.length_replicate 1000000 0)
      (List.length_replicate 500000 0)
      (List.replicate 4 (StreamEvent.custom "bytes_requested" (Json.obj [])))
      (by decide)).2⟩

/-- C8: bearer credential invariant. On every outbound call (login, latest,
list, post, create_stream), a Session holding credentials attaches the stored
token as the bearer credential, and a Session holding none attaches no bearer
credential — for every Session value, hence preserved across all Session
operations. -/
theorem c8_bearer_credential (c : PastaClient) (content : String) :
    (∀ cfg, c.config = some cfg →
      (loginRequest c).bearer = some cfg.token ∧
      (latestRequest c).bearer = some cfg.token ∧
      (listRequest c).bearer = some cfg.token ∧
      (postRequest c content).bearer = some cfg.token ∧
      (createStreamRequest c).bearer = some cfg.token) ∧
    (c.config = none →
      (loginRequest c).bearer = none ∧
      (latestRequest c).bearer = none ∧
      (listRequest c).bearer = none ∧
      (postRequest c content).bearer = none ∧
      (createStreamRequest c).bearer = none) := by
  constructor
  · intro cfg hcfg
    simp [loginRequest, latestRequest, listRequest, postRequest, createStreamRequest,
      add_token, bearer_auth, withJson, httpGet, httpPost, hcfg]
  · intro hcfg
    simp [loginRequest, latestRequest, listRequest, postRequest, createStreamRequest,
      add_token, withJson, httpGet, httpPost, hcfg]

theorem c8_bearer_credential_witness :
    (loginRequest ⟨some ⟨"tok", "h"⟩, "p"⟩).bearer = some "tok" ∧
    (loginRequest ⟨none, "p"⟩).bearer = none :=
  ⟨((c8_bearer_credential ⟨some ⟨"tok", "h"⟩, "p"⟩ "x").1 ⟨"tok", "h"⟩ rfl).1,
   ((c8_bearer_credential ⟨none, "p"⟩ "x").2 rfl).1⟩

/-- C9, counterexample: a `bytes` event whose payload lacks the `data` field
makes the consumer hit `unwrap` on `None` — the run aborts as a panic (modelled
`none`), not as any explicit protocol error value: no `FatalProtocolError` (or
any `HeyError`) is produced, contrary to the claim's surfacing requirement. -/
theorem c9_malformed_bytes_panics :
    consume ConsumerState.consuming
      [StreamEvent.custom "bytes" (Json.obj [("x", Json.str "y")])] = none := rfl

/-- C9, amended: a malformed `bytes` payload — missing `data` field, a `data`
value that is not a string, or invalid base64 — aborts the transfer immediately
and unconditionally (no write, no `request_bytes`, no further event processed,
no retry), but it does so by propagating an `unwrap` panic, not by surfacing an
explicit `FatalProtocolError`. -/
theorem c9_malformed_aborts (payload : Json) (evs : List StreamEvent)
    (h : payload.get "data" = none ∨
      (∃ v, payload.get "data" = some v ∧ v.asStr = none) ∨
      (∃ v x, payload.get "data" = some v ∧ v.asStr = some x ∧ base64Decode x = none)) :
    consumeStep ConsumerState.consuming (StreamEvent.custom "bytes" payload) = none ∧
    consume ConsumerState.consuming (StreamEvent.custom "bytes" payload :: evs)
      = none := by
  have hstep : consumeStep ConsumerState.consuming (StreamEvent.custom "bytes" payload)
      = none := by
    rcases h with hd | ⟨v, hd, hs⟩ | ⟨v, x, hd, hs, hdec⟩
    · simp [consumeStep, hd]
    · simp [consumeStep, hd, hs]
    · simp [consumeStep, hd, hs, hdec]
  exact ⟨hstep, by simp [consume, hstep]⟩

theorem c9_malformed_aborts_witness :
    (Json.obj []).get "data" = none ∧
    consumeStep ConsumerState.consuming
        (StreamEvent.custom "bytes" (Json.obj [])) = none ∧
    consume ConsumerState.consuming
        [StreamEvent.custom "bytes" (Json.obj []), StreamEvent.defined] = none := by
  have h := c9_malformed_aborts (Json.obj []) [StreamEvent.defined] (Or.inl rfl)
  exact ⟨rfl, h.1, h.2⟩

/-- C10: `ClientConfig::load_from_file` returns `NoConfigFound` exactly when the
path does not name an existing regular file; when the file exists but its
contents do not deserialize into a `ClientConfig` (string fields `token` and
`host`), the function panics through `unwrap` (modelled `none`) instead of
returning an error value. -/
theorem c10_load_from_file (fs : String → Option String)
    (parse : String → Option ClientConfig) (path : String) :
    (load_from_file fs parse path = some (Except.error HeyError.noConfigFound) ↔
      fs path = none) ∧
    (∀ content, fs path = some content → parse content = none →
      load_from_file fs parse path = none) := by
  constructor
  · constructor
    · intro h
      cases hfs : fs path with
      | none => rfl
      | some content =>
        simp only [load_from_file, hfs] at h
        cases hp : parse content with
        | none => rw [hp] at h; exact absurd h (by simp)
        | some cfg => rw [hp] at h; exact absurd h (by simp)
    · intro hfs
      simp [load_from_file, hfs]
  · intro content hfs hp
    simp [load_from_file, hfs, hp]

theorem c10_load_from_file_witness :
    ((fun _ => none : String → Option String) "p" = none) ∧
    load_from_file (fun _ => none) (fun _ => none) "p"
      = some (Except.error HeyError.noConfigFound) ∧
    load_from_file (fun _ => some "bad") (fun _ => none) "p" = none :=
  ⟨rfl,
   (c10_load_from_file (fun _ => none) (fun _ => none) "p").1.mpr rfl,
   (c10_load_from_file (fun _ => some "bad") (fun _ => none) "p").2 "bad" rfl rfl⟩

end Copypasta
